import Mathlib

/-!
Verification development for the DLA (diffusion-limited aggregation)
generator `src/dla_generator.py` and the sampler
`src/metropolis_hastings_algorithm.py`.

The Python code is shallowly embedded:

* The numpy boolean field becomes `DLA.Grid`: the size `N`, a total cell
  function `ℤ → ℤ → Bool` (only indices in `[0, N)` are ever read or
  written, matching the `N × N` array), and the boundary radius.
* The code stores the radius itself (the int `10`, later the float
  produced by `** 0.5`, always a nonnegative real).  Every comparison
  the code makes with the radius (`radius < max_radius()` in the loop
  head, `distance > radius` in `out_of_bounds`) compares nonnegative
  reals, so the embedding stores the exact *square* `radiusSq : ℤ`
  (radii arising in a run are square roots of integers) and compares
  squares.  `loopGuard_iff` proves the integer test used for
  `radius < max_radius()` equal to the exact rational statement, and
  `Real.sqrt` recovers the radius itself in theorem statements.
* `random.random()` enters the engine only through the rounded entry
  offsets `(round(cos(a)*radius), round(sin(a)*radius))`, and
  `random.randint(0, 7)` only through direction indices, so a trial's
  random input is an entry offset pair together with a list of `Fin 8`
  direction indices, and the `while` loop's trials are driven by a list
  of such inputs (the list length is the fuel; the real loop is
  unbounded).
* numpy indexing `self[i, j]` is total for `-N ≤ i < N` (a negative
  index wraps to `i + N`) and raises `IndexError` otherwise; `readIdx`
  returns `none` exactly in the `IndexError` case, and the engine run
  returns `none` when such an uncaught error would propagate.
* `np.zeros((size, size))` raises `ValueError` for a negative size, and
  the seed assignment `grid[center] = True` raises `IndexError` on the
  empty `0 × 0` array; `createGridE` mirrors both.  The error kind
  `PyError.invalidSizeError` is modelled from the spec: the dedicated
  invalid-size error named in the spec has no counterpart in the code,
  which is exactly what claim C4 is about.
-/

namespace DLA

/-- numpy rounding (`ndarray.round`): round half to even, here on an
exact rational.  `center()` applies it to `shape / 2`. -/
def npRound (q : ℚ) : ℤ :=
  if q - ⌊q⌋ < 1/2 then ⌊q⌋
  else if 1/2 < q - ⌊q⌋ then ⌊q⌋ + 1
  else if ⌊q⌋ % 2 = 0 then ⌊q⌋ else ⌊q⌋ + 1

/-- `center()` of an `n × n` grid:
`(np.array((n, n)) / 2).round().astype(int)`, one coordinate (both are
equal).  Computed in integer arithmetic; `centerCoord_eq_npRound` proves
it equal to the half-to-even rounding of the exact rational `n / 2`. -/
def centerCoord (n : ℕ) : ℤ :=
  if (n : ℤ) % 2 = 0 then (n : ℤ) / 2
  else if ((n : ℤ) / 2) % 2 = 0 then (n : ℤ) / 2 else (n : ℤ) / 2 + 1

/-- The grid state: `size` is `N` of the `N × N` field, `cells` the
occupancy (indices outside `[0, N)` are never touched), `radiusSq` the
square of the current boundary radius (`_radius`, initially `10`). -/
structure Grid where
  size : ℕ
  cells : ℤ → ℤ → Bool
  radiusSq : ℤ

/-- `_possible_directions`, in source order. -/
def dirList : List (ℤ × ℤ) :=
  [(1, 0), (1, 1), (0, 1), (-1, 1), (-1, 0), (-1, -1), (0, -1), (1, -1)]

/-- `possible_directions[k]` for `k = randint(0, 7)`. -/
def direction (k : Fin 8) : ℤ × ℤ := dirList.getD k.val (0, 0)

/-- One numpy read `self[i, j]`: `some` of the cell for indices in
`[-N, N)` (a negative index wraps to the opposite edge), `none` for the
`IndexError` outside that range. -/
def readIdx (g : Grid) (i j : ℤ) : Option Bool :=
  if -(g.size : ℤ) ≤ i ∧ i < (g.size : ℤ) ∧ -(g.size : ℤ) ≤ j ∧ j < (g.size : ℤ) then
    some (g.cells (if i < 0 then i + g.size else i) (if j < 0 then j + g.size else j))
  else none

/-- The generator inside `has_neighbors`: `any(self[c] for c in dirs + p)`
reads lazily and stops at the first `True`; an `IndexError` before that
propagates (`none`). -/
def neighborScan (g : Grid) : List (ℤ × ℤ) → ℤ × ℤ → Option Bool
  | [], _ => some false
  | d :: ds, p =>
    match readIdx g (p.1 + d.1) (p.2 + d.2) with
    | none => none
    | some true => some true
    | some false => neighborScan g ds p

/-- `has_neighbors(coordinate)` as the code computes it. -/
def hasNeighborsO (g : Grid) (p : ℤ × ℤ) : Option Bool := neighborScan g dirList p

/-- The property claims C1 and C7 speak about: some in-field 8-neighbor
of `p` is occupied (off-grid neighbors count as unoccupied, no fault). -/
def hasTrueNeighbor (g : Grid) (p : ℤ × ℤ) : Bool :=
  dirList.any fun d =>
    decide (0 ≤ p.1 + d.1 ∧ p.1 + d.1 < (g.size : ℤ) ∧
            0 ≤ p.2 + d.2 ∧ p.2 + d.2 < (g.size : ℤ)) &&
    g.cells (p.1 + d.1) (p.2 + d.2)

/-- Squared Euclidean distance from `center()`: the exact square of the
float `(((p - center) ** 2).sum()) ** 0.5` used by `out_of_bounds`, and
of `((p0-c0)**2.0 + (p1-c1)**2.0) ** 0.5` passed to `set_radius`. -/
def distSq (g : Grid) (p : ℤ × ℤ) : ℤ :=
  (p.1 - centerCoord g.size) ^ 2 + (p.2 - centerCoord g.size) ^ 2

/-- `max_radius()`: `min(*self.shape) / 2 - 2` = `n / 2 - 2` on a square
grid, an exact rational (float arithmetic on these small halves is
exact). -/
def maxRadius (n : ℕ) : ℚ := (n : ℚ) / 2 - 2

/-- The `while grid.radius < grid.max_radius()` test, in exact integer
arithmetic.  The radius is the nonnegative real `√radiusSq` and
`max_radius() = (n - 4) / 2`, so `radius < max_radius()` iff
`4 < n ∧ 4 * radiusSq < (n - 4)²`; `loopGuard_iff` proves this equal to
the rational-squares form of the comparison. -/
def loopGuard (g : Grid) : Bool :=
  decide (4 < (g.size : ℤ) ∧ 4 * g.radiusSq < ((g.size : ℤ) - 4) ^ 2)

/-- The assignment `grid[p] = True`. -/
def occupy (g : Grid) (p : ℤ × ℤ) : Grid :=
  { g with cells := fun i j => if i = p.1 ∧ j = p.2 then true else g.cells i j }

/-- The STUCK branch: `grid[p] = True`, then
`if grid.out_of_bounds(p): grid.set_radius(distance(p))`.
`out_of_bounds` is `distance > radius`, i.e. `radiusSq < distSq` on the
squares of two nonnegative reals. -/
def commit (g : Grid) (p : ℤ × ℤ) : Grid :=
  if (occupy g p).radiusSq < distSq (occupy g p) p then
    { occupy g p with radiusSq := distSq (occupy g p) p }
  else occupy g p

/-- The bounds test of the walk loop:
`p[0] < 0 or p[0] >= shape[0]-1 or p[1] < 0 or p[1] >= shape[1]-1`. -/
def escapes (n : ℕ) (q : ℤ × ℤ) : Bool :=
  decide (q.1 < 0 ∨ (n : ℤ) - 1 ≤ q.1 ∨ q.2 < 0 ∨ (n : ℤ) - 1 ≤ q.2)

/-- How one particle's walk ends, with its final position. -/
inductive Outcome
  | escaped : ℤ × ℤ → Outcome
  | stuck : ℤ × ℤ → Outcome
  | exhausted : ℤ × ℤ → Outcome
deriving DecidableEq

/-- One trial's random input: the rounded entry offset
`(round(cos(a) * radius), round(sin(a) * radius))` drawn from the random
angle `a`, and the walk's direction indices `randint(0, 7)` (the code
draws at most 200 of them; a shorter list ends the walk early exactly
like an exhausted step budget, and directions past a commit or escape
are never read). -/
structure TrialInput where
  entry : ℤ × ℤ
  dirs : List (Fin 8)

/-- The `for _ in range(200)` walk: step, test bounds (ESCAPED, grid
unchanged), test `has_neighbors` (STUCK commits and stops; an
`IndexError` inside it propagates as `none`), else continue; an empty
direction list is the exhausted budget (grid unchanged). -/
def runWalk (g : Grid) : List (Fin 8) → ℤ × ℤ → Option (Grid × Outcome)
  | [], p => some (g, .exhausted p)
  | k :: ks, p =>
    let q := (p.1 + (direction k).1, p.2 + (direction k).2)
    if escapes g.size q then some (g, .escaped q)
    else
      match hasNeighborsO g q with
      | none => none
      | some true => some (commit g q, .stuck q)
      | some false => runWalk g ks q

/-- `grid.center() + [round(cos(a)*radius), round(sin(a)*radius)]`. -/
def entryPos (g : Grid) (t : TrialInput) : ℤ × ℤ :=
  (centerCoord g.size + t.entry.1, centerCoord g.size + t.entry.2)

/-- One body of the `while` loop: spawn at the entry position and walk. -/
def runTrial (g : Grid) (t : TrialInput) : Option Grid :=
  (runWalk g t.dirs (entryPos g t)).map Prod.fst

/-- The `while grid.radius < grid.max_radius()` loop, driven by a list
of trial inputs (the fuel). -/
def runLoop : Grid → List TrialInput → Option Grid
  | g, [] => some g
  | g, t :: ts => if loopGuard g then (runTrial g t).bind (runLoop · ts) else some g

/-- The Python errors the entry point can raise.  `valueError` is
numpy's error for negative dimensions, `indexError` the out-of-range
index error.  `invalidSizeError` is modelled from the spec: the spec
names a dedicated `InvalidSizeError` for non-positive sizes; the code
defines no such error class, so no code path produces this value. -/
inductive PyError
  | valueError
  | indexError
  | invalidSizeError
deriving DecidableEq

/-- `np.zeros((n, n), dtype=np.bool)` with the seed
`grid[center] = True`: all cells false except the center; radius 10,
so `radiusSq = 100`. -/
def createGrid (n : ℕ) : Grid :=
  ⟨n, fun i j => decide (i = centerCoord n ∧ j = centerCoord n), 100⟩

/-- Grid creation including the failure cases: a negative size makes
`np.zeros` raise `ValueError`; size 0 allocates an empty array and the
seed assignment raises `IndexError`; otherwise the seed lands in range
(`centerCoord_lt`) and creation succeeds. -/
def createGridE (size : ℤ) : Except PyError Grid :=
  if size < 0 then .error .valueError
  else if size = 0 then .error .indexError
  else .ok (createGrid size.toNat)

/-- `generate_dla_grid(size)`: create, seed, loop; an uncaught
`IndexError` from `has_neighbors` propagates. -/
def generateDlaGrid (size : ℤ) (ts : List TrialInput) : Except PyError Grid :=
  match createGridE size with
  | .error e => .error e
  | .ok g =>
    match runLoop g ts with
    | none => .error .indexError
    | some g2 => .ok g2

end DLA

namespace MH

/-- The sampler's loop state: the current sample `x`, the remaining burn
count, the accepted output so far, and the iteration index `k` into the
random streams. -/
structure State where
  x : ℚ
  burn : ℕ
  out : List ℚ
  k : ℕ

/-- The random draws: `jumps k` is iteration k's `uniform(-alpha, alpha)`
and `accepts k` its `uniform(0, 1)`. -/
structure Rand where
  jumps : ℕ → ℚ
  accepts : ℕ → ℚ

/-- How `metropolis_hastings` ends: the returned sample list, the
re-raised `ZeroDivisionError`, or the fuel bound of the embedding (the
Python loop is unbounded). -/
inductive Result
  | ok : List ℚ → Result
  | divisionByZero : Result
  | outOfFuel : Result
deriving DecidableEq

/-- One error-free loop body: candidate, ratio, accept test, burn or
append.  Division is the total `ℚ` division here; `mhLoop` only takes
this step when the denominator `f s.x` is nonzero. -/
def step (f : ℚ → ℚ) (r : Rand) (s : State) : State :=
  let cand := s.x + r.jumps s.k
  if r.accepts s.k < f cand / f s.x then
    if s.burn = 0 then ⟨cand, 0, s.out ++ [cand], s.k + 1⟩
    else ⟨cand, s.burn - 1, s.out, s.k + 1⟩
  else ⟨s.x, s.burn, s.out, s.k + 1⟩

/-- The `while len(output) != size` loop: stop with the output when it
has `size` samples; raise `ZeroDivisionError` when the ratio
`density_func(candidate) / density_func(x)` divides by zero, i.e.
exactly when `f s.x = 0`; otherwise take one step.  `fuel` bounds the
embedding. -/
def mhLoop (f : ℚ → ℚ) (size : ℕ) (r : Rand) : ℕ → State → Result
  | 0, s => if s.out.length = size then .ok s.out else .outOfFuel
  | fuel + 1, s =>
    if s.out.length = size then .ok s.out
    else if f s.x = 0 then .divisionByZero
    else mhLoop f size r fuel (step f r s)

/-- `metropolis_hastings(density_func, size, alpha, burn)`: `x0` is the
initial `uniform(-alpha, alpha)` draw (`alpha` enters only through the
draws, which the `Rand` streams carry). -/
def metropolisHastings (f : ℚ → ℚ) (size : ℕ) (burn : ℕ) (x0 : ℚ) (r : Rand)
    (fuel : ℕ) : Result :=
  mhLoop f size r fuel ⟨x0, burn, [], 0⟩

end MH

namespace DLA

/-! ### Basic facts about the center and the guard encodings -/

/-- The integer form of `centerCoord` in terms of `n mod 4`. -/
theorem centerCoord_eq (n : ℕ) :
    centerCoord n = if (n : ℤ) % 4 = 3 then (n : ℤ) / 2 + 1 else (n : ℤ) / 2 := by
  unfold centerCoord
  split_ifs <;> omega

/-- Bounds used when the main loop runs (`max_radius() > radius ≥ 0`
forces `n ≥ 5`): the center stays at least two cells from the far edge. -/
theorem centerCoord_bounds (n : ℕ) (h : 5 ≤ n) :
    0 ≤ centerCoord n ∧ centerCoord n ≤ (n : ℤ) - 2 := by
  rw [centerCoord_eq]
  have hn : 5 ≤ (n : ℤ) := by exact_mod_cast h
  split_ifs <;> omega

/-- For any positive size the seed assignment `grid[center] = True`
lands inside the array. -/
theorem centerCoord_lt (n : ℕ) (h : 1 ≤ n) :
    0 ≤ centerCoord n ∧ centerCoord n < (n : ℤ) := by
  rw [centerCoord_eq]
  have hn : 1 ≤ (n : ℤ) := by exact_mod_cast h
  split_ifs <;> omega

/-- Floor of the exact rational `n / 2`. -/
theorem floor_nat_half (n : ℕ) : ⌊(n : ℚ) / 2⌋ = (n : ℤ) / 2 := by
  have h := Rat.floor_natCast_div_natCast n 2
  have h2 : ((2 : ℕ) : ℚ) = (2 : ℚ) := by norm_num
  rw [h2] at h
  rw [h]
  omega

/-- Bridge to the source: the integer-arithmetic `centerCoord` is the
half-to-even rounding of the exact rational `n / 2`, i.e. numpy's
`(shape / 2).round()`. -/
theorem centerCoord_eq_npRound (n : ℕ) : centerCoord n = npRound ((n : ℚ) / 2) := by
  unfold npRound
  rw [floor_nat_half n]
  rcases Nat.even_or_odd n with he | ho
  · obtain ⟨m, hm⟩ := he
    subst hm
    have hq : ((m + m : ℕ) : ℚ) / 2 = (m : ℚ) := by push_cast; ring
    have hz : ((m + m : ℕ) : ℤ) / 2 = (m : ℤ) := by push_cast; omega
    rw [hq, hz]
    have : (m : ℚ) - ((m : ℤ) : ℚ) = 0 := by push_cast; ring
    rw [this]
    rw [if_pos (by norm_num)]
    rw [centerCoord_eq]
    have h4 : ¬ ((m + m : ℕ) : ℤ) % 4 = 3 := by omega
    rw [if_neg h4]
    push_cast
    omega
  · obtain ⟨m, hm⟩ := ho
    subst hm
    have hz : ((2 * m + 1 : ℕ) : ℤ) / 2 = (m : ℤ) := by push_cast; omega
    have hq : ((2 * m + 1 : ℕ) : ℚ) / 2 - ((m : ℤ) : ℚ) = 1 / 2 := by push_cast; ring
    rw [hz, hq]
    rw [if_neg (by norm_num), if_neg (by norm_num)]
    rw [centerCoord_eq]
    by_cases hp : (m : ℤ) % 2 = 0
    · rw [if_pos hp]
      have h4 : ¬ ((2 * m + 1 : ℕ) : ℤ) % 4 = 3 := by omega
      rw [if_neg h4]
      push_cast
      omega
    · rw [if_neg hp]
      have h4 : ((2 * m + 1 : ℕ) : ℤ) % 4 = 3 := by omega
      rw [if_pos h4]
      push_cast
      omega

/-- `max_radius()` as a real number. -/
theorem maxRadius_cast (n : ℕ) : ((maxRadius n : ℚ) : ℝ) = ((n : ℝ) - 4) / 2 := by
  unfold maxRadius
  push_cast
  ring

/-- The integer guard is the exact squared form of
`radius < max_radius()`: `max_radius()` is positive and the squared
radius is below its square. -/
theorem loopGuard_iff (g : Grid) :
    loopGuard g = true ↔
      0 < maxRadius g.size ∧ (g.radiusSq : ℚ) < (maxRadius g.size) ^ 2 := by
  unfold loopGuard maxRadius
  rw [decide_eq_true_iff]
  constructor
  · rintro ⟨h1, h2⟩
    have h1q : (4 : ℚ) < (g.size : ℚ) := by exact_mod_cast h1
    have h2q : 4 * (g.radiusSq : ℚ) < ((g.size : ℚ) - 4) ^ 2 := by exact_mod_cast h2
    constructor
    · linarith
    · nlinarith
  · rintro ⟨h1, h2⟩
    have h1i : 4 < (g.size : ℤ) := by
      have : (4 : ℚ) < (g.size : ℚ) := by linarith
      exact_mod_cast this
    refine ⟨h1i, ?_⟩
    have h2q : 4 * (g.radiusSq : ℚ) < ((g.size : ℚ) - 4) ^ 2 := by nlinarith
    exact_mod_cast h2q

/-- Unpacked form of a true guard. -/
theorem loopGuard_true (g : Grid) (h : loopGuard g = true) :
    4 < (g.size : ℤ) ∧ 4 * g.radiusSq < ((g.size : ℤ) - 4) ^ 2 := by
  rwa [loopGuard, decide_eq_true_iff] at h

/-- Every direction of `_possible_directions` is a unit-or-diagonal step. -/
theorem dirList_bounds :
    ∀ d ∈ dirList, (-1 ≤ d.1 ∧ d.1 ≤ 1) ∧ (-1 ≤ d.2 ∧ d.2 ≤ 1) := by decide

end DLA

namespace DLA

/-! ### Frame facts about `occupy`, `commit`, walks and the loop -/

theorem occupy_size (g : Grid) (p : ℤ × ℤ) : (occupy g p).size = g.size := rfl

theorem occupy_radiusSq (g : Grid) (p : ℤ × ℤ) :
    (occupy g p).radiusSq = g.radiusSq := rfl

theorem occupy_cells (g : Grid) (p : ℤ × ℤ) (i j : ℤ) :
    (occupy g p).cells i j = if i = p.1 ∧ j = p.2 then true else g.cells i j := rfl

theorem distSq_occupy (g : Grid) (p q : ℤ × ℤ) :
    distSq (occupy g p) q = distSq g q := rfl

theorem commit_size (g : Grid) (p : ℤ × ℤ) : (commit g p).size = g.size := by
  unfold commit
  split <;> rfl

theorem commit_cells_fun (g : Grid) (p : ℤ × ℤ) :
    (commit g p).cells = (occupy g p).cells := by
  unfold commit
  split <;> rfl

/-- `commit` writes exactly the cell `p`. -/
theorem commit_cells (g : Grid) (p : ℤ × ℤ) (i j : ℤ) :
    (commit g p).cells i j = if i = p.1 ∧ j = p.2 then true else g.cells i j := by
  rw [commit_cells_fun, occupy_cells]

/-- The committed cell is occupied afterwards. -/
theorem commit_cells_self (g : Grid) (p : ℤ × ℤ) :
    (commit g p).cells p.1 p.2 = true := by
  rw [commit_cells]
  simp

/-- `commit` never clears a cell. -/
theorem commit_cells_mono (g : Grid) (p : ℤ × ℤ) (i j : ℤ)
    (h : g.cells i j = true) : (commit g p).cells i j = true := by
  rw [commit_cells]
  split <;> simp [h]

/-- The radius update inside `commit`: grow to the distance when
`out_of_bounds` holds, keep it otherwise. -/
theorem commit_radiusSq (g : Grid) (p : ℤ × ℤ) :
    (commit g p).radiusSq =
      if g.radiusSq < distSq g p then distSq g p else g.radiusSq := by
  unfold commit
  rw [show distSq (occupy g p) p = distSq g p from rfl,
    show (occupy g p).radiusSq = g.radiusSq from rfl]
  split <;> rfl

theorem commit_radiusSq_le (g : Grid) (p : ℤ × ℤ) :
    g.radiusSq ≤ (commit g p).radiusSq := by
  rw [commit_radiusSq]
  split <;> omega

/-- A walk that ends ESCAPED leaves the grid unchanged, and its final
position failed the bounds test of the code (a coordinate `< 0` or
`≥ size - 1`). -/
theorem runWalk_escaped (g : Grid) :
    ∀ (ds : List (Fin 8)) (p : ℤ × ℤ) (g' : Grid) (q : ℤ × ℤ),
      runWalk g ds p = some (g', .escaped q) →
      g' = g ∧ escapes g.size q = true := by
  intro ds
  induction ds with
  | nil =>
    intro p g' q h
    simp [runWalk] at h
  | cons k ks ih =>
    intro p g' q h
    rw [runWalk] at h
    split at h
    next hesc =>
      rw [Option.some.injEq, Prod.mk.injEq] at h
      obtain ⟨h1, h2⟩ := h
      cases h2
      exact ⟨h1.symm, hesc⟩
    next hesc =>
      split at h
      · exact absurd h (by simp)
      · rw [Option.some.injEq, Prod.mk.injEq] at h
        exact absurd h.2 (by simp)
      · exact ih _ _ _ h

/-- A walk that ends STUCK at `q` committed `q` on the grid as it was at
that moment (the walk changes nothing before its commit), after `q`
passed the bounds test and `has_neighbors(q)` returned `True`. -/
theorem runWalk_stuck (g : Grid) :
    ∀ (ds : List (Fin 8)) (p : ℤ × ℤ) (g' : Grid) (q : ℤ × ℤ),
      runWalk g ds p = some (g', .stuck q) →
      g' = commit g q ∧ escapes g.size q = false ∧ hasNeighborsO g q = some true := by
  intro ds
  induction ds with
  | nil =>
    intro p g' q h
    simp [runWalk] at h
  | cons k ks ih =>
    intro p g' q h
    rw [runWalk] at h
    split at h
    next hesc =>
      rw [Option.some.injEq, Prod.mk.injEq] at h
      exact absurd h.2 (by simp)
    next hesc =>
      split at h
      · exact absurd h (by simp)
      next hnb =>
        rw [Option.some.injEq, Prod.mk.injEq] at h
        obtain ⟨h1, h2⟩ := h
        cases h2
        exact ⟨h1.symm, by simpa using hesc, hnb⟩
      · exact ih _ _ _ h

/-- A walk that does not end STUCK leaves the grid unchanged. -/
theorem runWalk_not_stuck (g : Grid) :
    ∀ (ds : List (Fin 8)) (p : ℤ × ℤ) (g' : Grid) (o : Outcome),
      runWalk g ds p = some (g', o) → (∀ q, o ≠ .stuck q) → g' = g := by
  intro ds
  induction ds with
  | nil =>
    intro p g' o h _
    rw [runWalk, Option.some.injEq] at h
    exact (congrArg Prod.fst h).symm
  | cons k ks ih =>
    intro p g' o h hno
    rw [runWalk] at h
    split at h
    · rw [Option.some.injEq] at h
      exact (congrArg Prod.fst h).symm
    · split at h
      · exact absurd h (by simp)
      · rw [Option.some.injEq, Prod.mk.injEq] at h
        exact absurd h.2.symm (hno _)
      · exact ih _ _ _ h hno

/-- Size, radius growth and cell monotonicity along one walk. -/
theorem runWalk_facts (g : Grid) :
    ∀ (ds : List (Fin 8)) (p : ℤ × ℤ) (g' : Grid) (o : Outcome),
      runWalk g ds p = some (g', o) →
      g'.size = g.size ∧ g.radiusSq ≤ g'.radiusSq ∧
        ∀ i j, g.cells i j = true → g'.cells i j = true := by
  intro ds p g' o h
  by_cases hs : ∃ q, o = .stuck q
  · obtain ⟨q, rfl⟩ := hs
    obtain ⟨rfl, -, -⟩ := runWalk_stuck g ds p g' q h
    exact ⟨commit_size g q, commit_radiusSq_le g q, commit_cells_mono g q⟩
  · push_neg at hs
    obtain rfl := runWalk_not_stuck g ds p g' o h hs
    exact ⟨rfl, le_refl _, fun i j hc => hc⟩

/-- Size, radius growth and cell monotonicity along the whole loop. -/
theorem runLoop_facts :
    ∀ (ts : List TrialInput) (g g' : Grid), runLoop g ts = some g' →
      g'.size = g.size ∧ g.radiusSq ≤ g'.radiusSq ∧
        ∀ i j, g.cells i j = true → g'.cells i j = true := by
  intro ts
  induction ts with
  | nil =>
    intro g g' h
    rw [runLoop, Option.some.injEq] at h
    subst h
    exact ⟨rfl, le_refl _, fun i j hc => hc⟩
  | cons t ts ih =>
    intro g g' h
    rw [runLoop] at h
    split at h
    · rw [Option.bind_eq_some] at h
      obtain ⟨g1, h1, h2⟩ := h
      rw [runTrial, Option.map_eq_some'] at h1
      obtain ⟨⟨gw, ow⟩, hw, hg1⟩ := h1
      cases hg1
      obtain ⟨hsz1, hr1, hm1⟩ := runWalk_facts g t.dirs (entryPos g t) gw ow hw
      obtain ⟨hsz2, hr2, hm2⟩ := ih gw g' h2
      exact ⟨hsz2.trans hsz1, le_trans hr1 hr2, fun i j hc => hm2 i j (hm1 i j hc)⟩
    · rw [Option.some.injEq] at h
      subst h
      exact ⟨rfl, le_refl _, fun i j hc => hc⟩

/-- Creation succeeds exactly for positive sizes, and then yields the
seeded grid. -/
theorem createGridE_ok (size : ℤ) (g : Grid) (h : createGridE size = .ok g) :
    1 ≤ size ∧ g = createGrid size.toNat := by
  unfold createGridE at h
  split_ifs at h with h1 h2
  rw [Except.ok.injEq] at h
  exact ⟨by omega, h.symm⟩

end DLA

namespace DLA

/-! ### The run invariant

Every grid reachable in a run satisfies: the radius is nonnegative,
every occupied cell lies within the boundary radius, every occupied cell
is the seed or lies in the core `[0, N-2]²` (the walk's bounds test
admits only such cells, and the seed is placed there whenever the main
loop can run at all), and the radius is still the initial 10 or within
`√2` of `max_radius()` (each growth step moves to a cell adjacent to an
already-in-radius cell, from a state where `radius < max_radius()`). -/

def Inv (g : Grid) : Prop :=
  0 ≤ g.radiusSq ∧
  (∀ i j, g.cells i j = true → distSq g (i, j) ≤ g.radiusSq) ∧
  (∀ i j, g.cells i j = true →
      (i = centerCoord g.size ∧ j = centerCoord g.size) ∨
      (0 ≤ i ∧ i ≤ (g.size : ℤ) - 2 ∧ 0 ≤ j ∧ j ≤ (g.size : ℤ) - 2)) ∧
  (g.radiusSq = 100 ∨
    Real.sqrt (g.radiusSq : ℝ) < ((g.size : ℝ) - 4) / 2 + Real.sqrt 2)

theorem distSq_commit (g : Grid) (p r : ℤ × ℤ) :
    distSq (commit g p) r = distSq g r := by
  unfold distSq
  rw [commit_size]

theorem distSq_nonneg (g : Grid) (p : ℤ × ℤ) : 0 ≤ distSq g p := by
  unfold distSq
  positivity

/-- The freshly created grid satisfies the invariant. -/
theorem inv_create (n : ℕ) : Inv (createGrid n) := by
  refine ⟨show (0 : ℤ) ≤ 100 by norm_num, ?_, ?_, Or.inl rfl⟩
  · intro i j hc
    rw [show (createGrid n).cells i j = decide (i = centerCoord n ∧ j = centerCoord n)
      from rfl, decide_eq_true_iff] at hc
    obtain ⟨rfl, rfl⟩ := hc
    show distSq (createGrid n) (centerCoord n, centerCoord n) ≤ 100
    unfold distSq
    rw [show (createGrid n).size = n from rfl]
    norm_num
  · intro i j hc
    rw [show (createGrid n).cells i j = decide (i = centerCoord n ∧ j = centerCoord n)
      from rfl, decide_eq_true_iff] at hc
    exact Or.inl hc

/-- `any(...)` returning `True` exhibits a successful read. -/
theorem neighborScan_true (g : Grid) :
    ∀ (ds : List (ℤ × ℤ)) (p : ℤ × ℤ), neighborScan g ds p = some true →
      ∃ d ∈ ds, readIdx g (p.1 + d.1) (p.2 + d.2) = some true := by
  intro ds
  induction ds with
  | nil =>
    intro p h
    simp [neighborScan] at h
  | cons d ds ih =>
    intro p h
    rw [neighborScan] at h
    split at h
    next heq => exact absurd h (by simp)
    next heq => exact ⟨d, List.mem_cons_self d ds, heq⟩
    next heq =>
      obtain ⟨e, he, h2⟩ := ih p h
      exact ⟨e, List.mem_cons_of_mem d he, h2⟩

/-- A successful `True` read, unpacked: the indices were in numpy's
accepted range and the (possibly wrapped) cell is occupied. -/
theorem readIdx_true (g : Grid) (i j : ℤ) (h : readIdx g i j = some true) :
    (-(g.size : ℤ) ≤ i ∧ i < (g.size : ℤ) ∧ -(g.size : ℤ) ≤ j ∧ j < (g.size : ℤ)) ∧
    g.cells (if i < 0 then i + g.size else i) (if j < 0 then j + g.size else j) = true := by
  unfold readIdx at h
  split at h
  next hr =>
    rw [Option.some.injEq] at h
    exact ⟨hr, h⟩
  next hr => exact absurd h (by simp)

/-- A position that passes the walk's bounds test has both coordinates
in `[0, size - 2]`. -/
theorem escapes_false (n : ℕ) (q : ℤ × ℤ) (h : escapes n q = false) :
    0 ≤ q.1 ∧ q.1 ≤ (n : ℤ) - 2 ∧ 0 ≤ q.2 ∧ q.2 ≤ (n : ℤ) - 2 := by
  unfold escapes at h
  rw [decide_eq_false_iff_not] at h
  push_neg at h
  omega

/-- Under the invariant (with a grid big enough for the loop to run),
every occupied cell has both coordinates in `[0, size - 2]`: committed
cells by the bounds test, the seed by `centerCoord_bounds`. -/
theorem cells_in_core (g : Grid) (hg4 : 4 < (g.size : ℤ)) (hI : Inv g) (i j : ℤ)
    (hc : g.cells i j = true) :
    0 ≤ i ∧ i ≤ (g.size : ℤ) - 2 ∧ 0 ≤ j ∧ j ≤ (g.size : ℤ) - 2 := by
  rcases hI.2.2.1 i j hc with ⟨rfl, rfl⟩ | hin
  · have h5 : 5 ≤ g.size := by omega
    obtain ⟨h0, h2⟩ := centerCoord_bounds g.size h5
    exact ⟨h0, h2, h0, h2⟩
  · exact hin

/-- The key unwrapping fact: when the walk commits (bounds test passed,
`has_neighbors` returned `True`) from a state where the loop guard holds
and the invariant holds, the `True` read cannot have come from a
wrapped-around negative index — a wrapped read would hit a cell in the
last row or column, and no such cell is occupied.  Hence a genuine
in-field 8-neighbor of the committed cell is occupied. -/
theorem stuck_neighbor (g : Grid) (q : ℤ × ℤ) (hg : loopGuard g = true) (hI : Inv g)
    (hesc : escapes g.size q = false) (hnb : hasNeighborsO g q = some true) :
    ∃ d ∈ dirList,
      (0 ≤ q.1 + d.1 ∧ q.1 + d.1 < (g.size : ℤ) ∧
       0 ≤ q.2 + d.2 ∧ q.2 + d.2 < (g.size : ℤ)) ∧
      g.cells (q.1 + d.1) (q.2 + d.2) = true := by
  obtain ⟨d, hd, hread⟩ := neighborScan_true g dirList q hnb
  obtain ⟨⟨hi1, hi2, hj1, hj2⟩, hcell⟩ := readIdx_true g _ _ hread
  obtain ⟨hq1, hq2, hq3, hq4⟩ := escapes_false g.size q hesc
  obtain ⟨⟨hd1, hd2⟩, hd3, hd4⟩ := dirList_bounds d hd
  have hg4 := (loopGuard_true g hg).1
  by_cases hx : q.1 + d.1 < 0
  · exfalso
    rw [if_pos hx] at hcell
    by_cases hy : q.2 + d.2 < 0
    · rw [if_pos hy] at hcell
      have := cells_in_core g hg4 hI _ _ hcell
      omega
    · rw [if_neg hy] at hcell
      have := cells_in_core g hg4 hI _ _ hcell
      omega
  · by_cases hy : q.2 + d.2 < 0
    · exfalso
      rw [if_neg hx, if_pos hy] at hcell
      have := cells_in_core g hg4 hI _ _ hcell
      omega
    · rw [if_neg hx, if_neg hy] at hcell
      exact ⟨d, hd, ⟨by omega, by omega, by omega, by omega⟩, hcell⟩

/-- Plane geometry: one unit-or-diagonal step moves the distance to any
fixed point by at most `√2` (Cauchy-Schwarz and monotonicity of `√`). -/
theorem sqrt_step_bound (a b u v : ℝ) (h : u ^ 2 + v ^ 2 ≤ 2) :
    Real.sqrt ((a + u) ^ 2 + (b + v) ^ 2) ≤
      Real.sqrt (a ^ 2 + b ^ 2) + Real.sqrt 2 := by
  have hSn : 0 ≤ Real.sqrt (a ^ 2 + b ^ 2) := Real.sqrt_nonneg _
  have hTn : 0 ≤ Real.sqrt (u ^ 2 + v ^ 2) := Real.sqrt_nonneg _
  have hS : Real.sqrt (a ^ 2 + b ^ 2) ^ 2 = a ^ 2 + b ^ 2 := Real.sq_sqrt (by positivity)
  have hT : Real.sqrt (u ^ 2 + v ^ 2) ^ 2 = u ^ 2 + v ^ 2 := Real.sq_sqrt (by positivity)
  have cs : a * u + b * v ≤ Real.sqrt (a ^ 2 + b ^ 2) * Real.sqrt (u ^ 2 + v ^ 2) := by
    nlinarith [sq_nonneg (a * v - b * u), mul_nonneg hSn hTn,
      sq_nonneg (Real.sqrt (a ^ 2 + b ^ 2) * Real.sqrt (u ^ 2 + v ^ 2) - (a * u + b * v))]
  have expand : (a + u) ^ 2 + (b + v) ^ 2 ≤
      (Real.sqrt (a ^ 2 + b ^ 2) + Real.sqrt (u ^ 2 + v ^ 2)) ^ 2 := by
    nlinarith [cs, hS, hT]
  calc Real.sqrt ((a + u) ^ 2 + (b + v) ^ 2)
      ≤ Real.sqrt ((Real.sqrt (a ^ 2 + b ^ 2) + Real.sqrt (u ^ 2 + v ^ 2)) ^ 2) :=
        Real.sqrt_le_sqrt expand
    _ = Real.sqrt (a ^ 2 + b ^ 2) + Real.sqrt (u ^ 2 + v ^ 2) :=
        Real.sqrt_sq (by positivity)
    _ ≤ Real.sqrt (a ^ 2 + b ^ 2) + Real.sqrt 2 := by
        have := Real.sqrt_le_sqrt h
        linarith

end DLA

namespace DLA

/-- Committing a cell from a state where the loop guard and the
invariant hold preserves the invariant.  For the radius bound: the
committed cell is one step from an occupied cell that lies within the
current radius, and the current radius is below `max_radius()`, so the
new radius stays below `max_radius() + √2`. -/
theorem commit_inv (g : Grid) (q : ℤ × ℤ) (hg : loopGuard g = true) (hI : Inv g)
    (hesc : escapes g.size q = false) (hnb : hasNeighborsO g q = some true) :
    Inv (commit g q) := by
  obtain ⟨d, hd, ⟨hb1, hb2, hb3, hb4⟩, hcell⟩ := stuck_neighbor g q hg hI hesc hnb
  obtain ⟨hg4, hgr⟩ := loopGuard_true g hg
  obtain ⟨hq1, hq2, hq3, hq4⟩ := escapes_false g.size q hesc
  obtain ⟨hr0, hA, hD, hB⟩ := hI
  have hw : distSq g (q.1 + d.1, q.2 + d.2) ≤ g.radiusSq := hA _ _ hcell
  have key : Real.sqrt ((distSq g q : ℤ) : ℝ) < ((g.size : ℝ) - 4) / 2 + Real.sqrt 2 := by
    obtain ⟨⟨hd1, hd2⟩, hd3, hd4⟩ := dirList_bounds d hd
    have hd1r : (-1 : ℝ) ≤ (d.1 : ℝ) := by exact_mod_cast hd1
    have hd2r : ((d.1 : ℤ) : ℝ) ≤ 1 := by exact_mod_cast hd2
    have hd3r : (-1 : ℝ) ≤ (d.2 : ℝ) := by exact_mod_cast hd3
    have hd4r : ((d.2 : ℤ) : ℝ) ≤ 1 := by exact_mod_cast hd4
    have e1 : ((distSq g q : ℤ) : ℝ) =
        (((q.1 + d.1 - centerCoord g.size : ℤ) : ℝ) + ((-d.1 : ℤ) : ℝ)) ^ 2 +
        (((q.2 + d.2 - centerCoord g.size : ℤ) : ℝ) + ((-d.2 : ℤ) : ℝ)) ^ 2 := by
      unfold distSq
      push_cast
      ring
    have e2 : ((distSq g (q.1 + d.1, q.2 + d.2) : ℤ) : ℝ) =
        ((q.1 + d.1 - centerCoord g.size : ℤ) : ℝ) ^ 2 +
        ((q.2 + d.2 - centerCoord g.size : ℤ) : ℝ) ^ 2 := by
      unfold distSq
      push_cast
      ring
    have hu : ((-d.1 : ℤ) : ℝ) ^ 2 + ((-d.2 : ℤ) : ℝ) ^ 2 ≤ 2 := by
      push_cast
      nlinarith
    have step1 := sqrt_step_bound
      ((q.1 + d.1 - centerCoord g.size : ℤ) : ℝ)
      ((q.2 + d.2 - centerCoord g.size : ℤ) : ℝ)
      ((-d.1 : ℤ) : ℝ) ((-d.2 : ℤ) : ℝ) hu
    rw [← e1, ← e2] at step1
    have mono : Real.sqrt ((distSq g (q.1 + d.1, q.2 + d.2) : ℤ) : ℝ) ≤
        Real.sqrt ((g.radiusSq : ℤ) : ℝ) := by
      apply Real.sqrt_le_sqrt
      exact_mod_cast hw
    have hgrr : (4 : ℝ) * ((g.radiusSq : ℤ) : ℝ) < (((g.size : ℝ)) - 4) ^ 2 := by
      exact_mod_cast hgr
    have hradlt : Real.sqrt ((g.radiusSq : ℤ) : ℝ) < ((g.size : ℝ) - 4) / 2 := by
      have hnn : (0 : ℝ) ≤ ((g.radiusSq : ℤ) : ℝ) := by exact_mod_cast hr0
      have hmr : (0 : ℝ) ≤ ((g.size : ℝ) - 4) / 2 := by
        have : (4 : ℝ) < (g.size : ℝ) := by exact_mod_cast hg4
        linarith
      have hlt : ((g.radiusSq : ℤ) : ℝ) < (((g.size : ℝ) - 4) / 2) ^ 2 := by nlinarith
      calc Real.sqrt ((g.radiusSq : ℤ) : ℝ)
          < Real.sqrt ((((g.size : ℝ) - 4) / 2) ^ 2) := Real.sqrt_lt_sqrt hnn hlt
        _ = ((g.size : ℝ) - 4) / 2 := Real.sqrt_sq hmr
    linarith
  refine ⟨?_, ?_, ?_, ?_⟩
  · rw [commit_radiusSq]
    split
    · exact distSq_nonneg g q
    · exact hr0
  · intro i j hc
    rw [commit_cells] at hc
    rw [distSq_commit, commit_radiusSq]
    split at hc
    next hij =>
      obtain ⟨rfl, rfl⟩ := hij
      have hqe : distSq g (q.1, q.2) = distSq g q := rfl
      rw [hqe]
      split <;> omega
    next hij =>
      have := hA i j hc
      split <;> omega
  · intro i j hc
    rw [commit_cells] at hc
    rw [commit_size]
    split at hc
    next hij =>
      obtain ⟨rfl, rfl⟩ := hij
      exact Or.inr ⟨hq1, hq2, hq3, hq4⟩
    next hij => exact hD i j hc
  · rw [commit_radiusSq, commit_size]
    split
    · exact Or.inr key
    · exact hB

/-- Any walk from a guard-true invariant state preserves the invariant. -/
theorem runWalk_inv (g : Grid) (ds : List (Fin 8)) (p : ℤ × ℤ) (g' : Grid)
    (o : Outcome) (hg : loopGuard g = true) (hI : Inv g)
    (h : runWalk g ds p = some (g', o)) : Inv g' := by
  by_cases hs : ∃ q, o = .stuck q
  · obtain ⟨q, rfl⟩ := hs
    obtain ⟨rfl, hesc, hnb⟩ := runWalk_stuck g ds p g' q h
    exact commit_inv g q hg hI hesc hnb
  · push_neg at hs
    obtain rfl := runWalk_not_stuck g ds p g' o h hs
    exact hI

/-- The whole loop preserves the invariant. -/
theorem runLoop_inv :
    ∀ (ts : List TrialInput) (g g' : Grid), Inv g → runLoop g ts = some g' → Inv g' := by
  intro ts
  induction ts with
  | nil =>
    intro g g' hI h
    rw [runLoop, Option.some.injEq] at h
    exact h ▸ hI
  | cons t ts ih =>
    intro g g' hI h
    rw [runLoop] at h
    split at h
    next hg =>
      rw [Option.bind_eq_some] at h
      obtain ⟨g1, h1, h2⟩ := h
      rw [runTrial, Option.map_eq_some'] at h1
      obtain ⟨⟨gw, ow⟩, hw, hg1⟩ := h1
      cases hg1
      exact ih gw g' (runWalk_inv g t.dirs (entryPos g t) gw ow hg hI hw) h2
    next hg =>
      rw [Option.some.injEq] at h
      exact h ▸ hI

end DLA

namespace DLA

/-! ### Unpacking the entry point -/

/-- A successful `generate_dla_grid` run is a successful creation
followed by a loop run with no uncaught error. -/
theorem generateDlaGrid_ok (size : ℤ) (ts : List TrialInput) (gF : Grid)
    (h : generateDlaGrid size ts = .ok gF) :
    ∃ g0, createGridE size = .ok g0 ∧ runLoop g0 ts = some gF := by
  unfold generateDlaGrid at h
  split at h
  · exact absurd h (by simp)
  next g0 heq =>
    split at h
    · exact absurd h (by simp)
    next g2 hl =>
      rw [Except.ok.injEq] at h
      exact ⟨g0, heq, h ▸ hl⟩

/-! ### The claims -/

/-- A 3×3 grid whose only occupied cell is `(2, 2)`, the far corner. -/
def gC1 : Grid := ⟨3, fun i j => decide (i = 2 ∧ j = 2), 100⟩

/-- C1: the claim is the intended guarded behavior, and the code lacks
it.  On `gC1`, `has_neighbors((0, 0))` returns `True` although no
in-field 8-neighbor of `(0, 0)` is occupied — the read of the off-grid
neighbor `(-1, -1)` wraps around to the occupied far corner `(2, 2)` —
and `has_neighbors((2, 2))` faults (`IndexError` probing index 3). -/
theorem claim_C1_code_bug_evidence :
    hasNeighborsO gC1 (0, 0) = some true ∧
    hasTrueNeighbor gC1 (0, 0) = false ∧
    hasNeighborsO gC1 (2, 2) = none := by
  exact ⟨by decide, by decide, by decide⟩

/-- C2, counterexample: on the 25×25 grid, a particle stepping from the
entry position `(22, 12)` (center + offset `(10, 0)`, the rounded entry
for angle 0 at radius 10) twice in direction `(+1, 0)` reaches
`(24, 12)` — both coordinates inside `[0, N-1]` — yet the walk discards
it as ESCAPED, because the code's test is `>= N - 1`, not `>= N`. -/
theorem claim_C2_counterexample :
    (runWalk (createGrid 25) [0, 0] (22, 12)).map Prod.snd =
      some (.escaped (24, 12)) ∧
    (0 ≤ (24 : ℤ) ∧ (24 : ℤ) < 25 ∧ 0 ≤ (12 : ℤ) ∧ (12 : ℤ) < 25) := by
  exact ⟨by decide, by norm_num⟩

/-- C2, amended: a particle is discarded as ESCAPED exactly when, after
a step, some coordinate is `< 0` or `≥ N - 1` (one less than the claim's
`≥ N`): every ESCAPED outcome ends at such a position with the grid
unchanged, and any step landing on such a position ends the walk ESCAPED
there at once. -/
theorem claim_C2_amended :
    (∀ (g : Grid) (ds : List (Fin 8)) (p : ℤ × ℤ) (g' : Grid) (q : ℤ × ℤ),
        runWalk g ds p = some (g', .escaped q) →
        g' = g ∧
          (q.1 < 0 ∨ (g.size : ℤ) - 1 ≤ q.1 ∨ q.2 < 0 ∨ (g.size : ℤ) - 1 ≤ q.2)) ∧
    (∀ (g : Grid) (k : Fin 8) (ks : List (Fin 8)) (p : ℤ × ℤ),
        escapes g.size (p.1 + (direction k).1, p.2 + (direction k).2) = true →
        runWalk g (k :: ks) p =
          some (g, .escaped (p.1 + (direction k).1, p.2 + (direction k).2))) := by
  constructor
  · intro g ds p g' q h
    obtain ⟨h1, h2⟩ := runWalk_escaped g ds p g' q h
    refine ⟨h1, ?_⟩
    unfold escapes at h2
    rwa [decide_eq_true_iff] at h2
  · intro g k ks p h
    simp only [runWalk]
    rw [if_pos h]

/-- C3: for any positive size whose `max_radius()` is at most the
initial radius 10 (every size up to 24), the run returns at once: the
guard fails, no trial runs, no exception is raised, and the only
occupied cell of the returned grid is the center seed. -/
theorem claim_C3 (size : ℤ) (ts : List TrialInput) (h1 : 1 ≤ size)
    (h2 : maxRadius size.toNat ≤ 10) :
    generateDlaGrid size ts = .ok (createGrid size.toNat) ∧
    ∀ i j, ((createGrid size.toNat).cells i j = true ↔
      (i = centerCoord size.toNat ∧ j = centerCoord size.toNat)) := by
  have hn : (size.toNat : ℚ) ≤ 24 := by
    unfold maxRadius at h2
    linarith
  have hn24 : size.toNat ≤ 24 := by exact_mod_cast hn
  have hguard : loopGuard (createGrid size.toNat) = false := by
    unfold loopGuard
    rw [decide_eq_false_iff_not]
    rintro ⟨ha, hb⟩
    rw [show (createGrid size.toNat).radiusSq = 100 from rfl] at hb
    rw [show (createGrid size.toNat).size = size.toNat from rfl] at ha hb
    have h24 : (size.toNat : ℤ) ≤ 24 := by exact_mod_cast hn24
    nlinarith
  have hloop : runLoop (createGrid size.toNat) ts = some (createGrid size.toNat) := by
    cases ts with
    | nil => rfl
    | cons t ts2 =>
      rw [runLoop, hguard]
      simp
  constructor
  · unfold generateDlaGrid createGridE
    rw [if_neg (show ¬ size < 0 by omega), if_neg (show ¬ size = 0 by omega)]
    show (match runLoop (createGrid size.toNat) ts with
      | none => Except.error PyError.indexError
      | some g2 => Except.ok g2) = Except.ok (createGrid size.toNat)
    rw [hloop]
  · intro i j
    rw [show (createGrid size.toNat).cells i j =
      decide (i = centerCoord size.toNat ∧ j = centerCoord size.toNat) from rfl,
      decide_eq_true_iff]

theorem claim_C3_witness :
    generateDlaGrid 1 [] = .ok (createGrid (1 : ℤ).toNat) ∧
    (createGrid (1 : ℤ).toNat).cells 0 0 = true := by
  have h := claim_C3 1 [] (by norm_num) (by unfold maxRadius; norm_num)
  exact ⟨h.1, (h.2 0 0).mpr (by decide)⟩

/-- C4, counterexample: for size 0 the failure is the seed assignment's
`IndexError`, for a negative size numpy's `ValueError` — neither is the
dedicated invalid-size error the claim names. -/
theorem claim_C4_counterexample :
    generateDlaGrid 0 [] = .error .indexError ∧
    generateDlaGrid (-3) [] = .error .valueError ∧
    PyError.indexError ≠ PyError.invalidSizeError ∧
    PyError.valueError ≠ PyError.invalidSizeError :=
  ⟨rfl, rfl, by decide, by decide⟩

/-- C4, amended: every non-positive size does fail before the main loop
runs, but with numpy's generic errors (`ValueError` below zero,
`IndexError` at zero), never with a dedicated invalid-size error. -/
theorem claim_C4_amended (size : ℤ) (ts : List TrialInput) (h : size ≤ 0) :
    generateDlaGrid size ts =
      .error (if size < 0 then .valueError else .indexError) ∧
    (if size < 0 then PyError.valueError else PyError.indexError) ≠
      PyError.invalidSizeError := by
  rcases lt_or_eq_of_le h with hlt | heq
  · have hc : createGridE size = .error .valueError := by
      unfold createGridE
      rw [if_pos hlt]
    constructor
    · unfold generateDlaGrid
      rw [hc, if_pos hlt]
    · rw [if_pos hlt]
      decide
  · subst heq
    exact ⟨rfl, by decide⟩

theorem claim_C4_witness :
    generateDlaGrid (-3) [] =
      .error (if (-3 : ℤ) < 0 then .valueError else .indexError) ∧
    (if (-3 : ℤ) < 0 then PyError.valueError else PyError.indexError) ≠
      PyError.invalidSizeError :=
  claim_C4_amended (-3) [] (by norm_num)

/-- C5: occupancy is monotonic across any split of a run — the cells
occupied after some trials stay occupied after any further trials — and
the center seed is occupied from creation to the end. -/
theorem claim_C5 (size : ℤ) (g0 g1 g2 : Grid) (ts1 ts2 : List TrialInput)
    (hc : createGridE size = .ok g0) (h1 : runLoop g0 ts1 = some g1)
    (h2 : runLoop g1 ts2 = some g2) :
    (∀ i j, g0.cells i j = true → g1.cells i j = true) ∧
    (∀ i j, g1.cells i j = true → g2.cells i j = true) ∧
    g0.cells (centerCoord size.toNat) (centerCoord size.toNat) = true ∧
    g1.cells (centerCoord size.toNat) (centerCoord size.toNat) = true ∧
    g2.cells (centerCoord size.toNat) (centerCoord size.toNat) = true := by
  obtain ⟨hs, rfl⟩ := createGridE_ok size g0 hc
  have m1 := (runLoop_facts ts1 _ g1 h1).2.2
  have m2 := (runLoop_facts ts2 g1 g2 h2).2.2
  have hc0 : (createGrid size.toNat).cells (centerCoord size.toNat)
      (centerCoord size.toNat) = true := by
    rw [show (createGrid size.toNat).cells (centerCoord size.toNat)
      (centerCoord size.toNat) =
      decide (centerCoord size.toNat = centerCoord size.toNat ∧
        centerCoord size.toNat = centerCoord size.toNat) from rfl]
    simp
  exact ⟨m1, m2, hc0, m1 _ _ hc0, m2 _ _ (m1 _ _ hc0)⟩

theorem claim_C5_witness :
    (commit (createGrid 25) (13, 12)).cells (centerCoord 25) (centerCoord 25) = true := by
  have h := claim_C5 25 (createGrid 25) (commit (createGrid 25) (13, 12))
    (commit (createGrid 25) (13, 12)) [⟨(10, 0), List.replicate 9 4⟩] []
    rfl rfl rfl
  exact h.2.2.2.1

end DLA

namespace DLA

/-- The trial inputs of the C6 counterexample run on the 25×25 grid:
every entry offset is `(10, 0)` (angle 0 at the then-current radius 10),
and the direction indices 0 and 4 are the steps `(+1, 0)` and `(-1, 0)`.
The first nine trials build a straight arm from the seed `(12, 12)` out
to `(21, 12)`, the tenth commits `(22, 12)` (distance 10, radius kept),
and the eleventh commits `(23, 12)` at distance 11, setting the radius
to 11 — past `max_radius() = 10.5` — which ends the loop. -/
def tsC6 : List TrialInput :=
  [⟨(10, 0), List.replicate 9 4⟩, ⟨(10, 0), List.replicate 8 4⟩,
   ⟨(10, 0), List.replicate 7 4⟩, ⟨(10, 0), List.replicate 6 4⟩,
   ⟨(10, 0), List.replicate 5 4⟩, ⟨(10, 0), List.replicate 4 4⟩,
   ⟨(10, 0), List.replicate 3 4⟩, ⟨(10, 0), List.replicate 2 4⟩,
   ⟨(10, 0), List.replicate 1 4⟩, ⟨(10, 0), [0, 4]⟩, ⟨(10, 0), [0]⟩]

/-- C6, counterexample: the run driven by `tsC6` terminates (the guard
is false on the returned grid) with squared radius 121, i.e. radius 11,
strictly above `max_radius(25) = 10.5` — the final radius is *not*
bounded by `max_radius()`. -/
theorem claim_C6_counterexample :
    (generateDlaGrid 25 tsC6).toOption.map Grid.radiusSq = some 121 ∧
    (generateDlaGrid 25 tsC6).toOption.map loopGuard = some false ∧
    ¬ (Real.sqrt ((121 : ℤ) : ℝ) ≤ ((maxRadius 25 : ℚ) : ℝ)) := by
  refine ⟨by decide, by decide, ?_⟩
  rw [show ((121 : ℤ) : ℝ) = 11 ^ 2 by norm_num,
    Real.sqrt_sq (by norm_num : (0 : ℝ) ≤ 11), maxRadius_cast]
  norm_num

/-- C6, amended: on any successful run the final radius either is still
the initial 10, or is strictly below `max_radius() + √2`: a growth step
commits a cell one lattice step away from a cell inside the current
radius while the guard `radius < max_radius()` still holds, so the
radius can overshoot `max_radius()` at the end, but by less than `√2`. -/
theorem claim_C6_amended (size : ℤ) (ts : List TrialInput) (gF : Grid)
    (h : generateDlaGrid size ts = .ok gF) :
    gF.radiusSq = 100 ∨
    Real.sqrt ((gF.radiusSq : ℤ) : ℝ) <
      ((maxRadius gF.size : ℚ) : ℝ) + Real.sqrt 2 := by
  obtain ⟨g0, hc, hl⟩ := generateDlaGrid_ok size ts gF h
  obtain ⟨hs, rfl⟩ := createGridE_ok size g0 hc
  have hI := runLoop_inv ts _ gF (inv_create size.toNat) hl
  rcases hI.2.2.2 with h100 | hbound
  · exact Or.inl h100
  · right
    rw [maxRadius_cast]
    exact hbound

theorem claim_C6_witness :
    (createGrid 25).radiusSq = 100 ∨
    Real.sqrt (((createGrid 25).radiusSq : ℤ) : ℝ) <
      ((maxRadius (createGrid 25).size : ℚ) : ℝ) + Real.sqrt 2 :=
  claim_C6_amended 25 [] (createGrid 25) rfl

/-- C7: whenever a particle gets STUCK at `q` during a run — on a
reachable grid with the loop guard true, as every trial of the main
loop is — the grid at that commit moment has an occupied genuine
in-field 8-neighbor of `q`.  (The walk leaves the grid untouched before
its commit, so `g` is the grid at the commit moment.) -/
theorem claim_C7 (size : ℤ) (g0 : Grid) (ts : List TrialInput) (g : Grid)
    (ds : List (Fin 8)) (p : ℤ × ℤ) (g' : Grid) (q : ℤ × ℤ)
    (hc : createGridE size = .ok g0) (hl : runLoop g0 ts = some g)
    (hg : loopGuard g = true) (hw : runWalk g ds p = some (g', .stuck q)) :
    hasTrueNeighbor g q = true := by
  obtain ⟨hs, rfl⟩ := createGridE_ok size g0 hc
  have hI := runLoop_inv ts _ g (inv_create size.toNat) hl
  obtain ⟨-, hesc, hnb⟩ := runWalk_stuck g ds p g' q hw
  obtain ⟨d, hd, hb, hcell⟩ := stuck_neighbor g q hg hI hesc hnb
  unfold hasTrueNeighbor
  rw [List.any_eq_true]
  refine ⟨d, hd, ?_⟩
  rw [Bool.and_eq_true, decide_eq_true_iff]
  exact ⟨hb, hcell⟩

theorem claim_C7_witness : hasTrueNeighbor (createGrid 25) (13, 12) = true :=
  claim_C7 25 (createGrid 25) [] (createGrid 25) [4] (14, 12)
    (commit (createGrid 25) (13, 12)) (13, 12) rfl rfl (by decide) rfl

/-- C8, counterexample: for size 3 the seed is set at `(2, 2)`, not at
`(⌊3/2⌋, ⌊3/2⌋) = (1, 1)`: numpy's `round` rounds the half 1.5 to the
even 2. -/
theorem claim_C8_counterexample :
    (createGrid 3).cells 2 2 = true ∧ (createGrid 3).cells 1 1 = false ∧
    centerCoord 3 = 2 ∧ ⌊(3 : ℚ) / 2⌋ = 1 := by
  refine ⟨by decide, by decide, by decide, ?_⟩
  norm_num

/-- C8, amended: the seed cell is `(c, c)` with `c` the half-to-even
rounding of `N / 2`: that is `⌊N/2⌋` for every size except those
congruent to 3 mod 4, where it is `⌊N/2⌋ + 1`. -/
theorem claim_C8_amended (n : ℕ) :
    (∀ i j, (createGrid n).cells i j = true ↔
      (i = centerCoord n ∧ j = centerCoord n)) ∧
    centerCoord n = npRound ((n : ℚ) / 2) ∧
    ((n : ℤ) % 4 = 3 → centerCoord n = ⌊(n : ℚ) / 2⌋ + 1) ∧
    ((n : ℤ) % 4 ≠ 3 → centerCoord n = ⌊(n : ℚ) / 2⌋) := by
  refine ⟨?_, centerCoord_eq_npRound n, ?_, ?_⟩
  · intro i j
    rw [show (createGrid n).cells i j =
      decide (i = centerCoord n ∧ j = centerCoord n) from rfl, decide_eq_true_iff]
  · intro h4
    rw [floor_nat_half, centerCoord_eq, if_pos h4]
  · intro h4
    rw [floor_nat_half, centerCoord_eq, if_neg h4]

theorem claim_C8_witness :
    (createGrid 5).cells (centerCoord 5) (centerCoord 5) = true ∧
    centerCoord 5 = ⌊(5 : ℚ) / 2⌋ := by
  have h := claim_C8_amended 5
  exact ⟨(h.1 _ _).mpr ⟨rfl, rfl⟩, h.2.2.2 (by decide)⟩

/-- C10: in any run, every occupied cell of any reachable grid is the
seed or has both coordinates in `[0, N-2]`: the walk's bounds test
discards a particle before it can commit in the last row or column. -/
theorem claim_C10 (size : ℤ) (g0 : Grid) (ts : List TrialInput) (gF : Grid)
    (i j : ℤ) (hc : createGridE size = .ok g0) (hl : runLoop g0 ts = some gF)
    (hocc : gF.cells i j = true) :
    (i = centerCoord size.toNat ∧ j = centerCoord size.toNat) ∨
    (0 ≤ i ∧ i ≤ size - 2 ∧ 0 ≤ j ∧ j ≤ size - 2) := by
  obtain ⟨hs, rfl⟩ := createGridE_ok size g0 hc
  have hI := runLoop_inv ts _ gF (inv_create size.toNat) hl
  have hsz : gF.size = size.toNat := (runLoop_facts ts _ gF hl).1
  have hmem := hI.2.2.1 i j hocc
  rw [hsz] at hmem
  have hcast : ((size.toNat : ℤ)) = size := Int.toNat_of_nonneg (by omega)
  rcases hmem with hseed | hin
  · exact Or.inl hseed
  · rw [hcast] at hin
    exact Or.inr hin

theorem claim_C10_witness :
    ((12 : ℤ) = centerCoord (25 : ℤ).toNat ∧
      (12 : ℤ) = centerCoord (25 : ℤ).toNat) ∨
    (0 ≤ (12 : ℤ) ∧ (12 : ℤ) ≤ 25 - 2 ∧ 0 ≤ (12 : ℤ) ∧ (12 : ℤ) ≤ 25 - 2) :=
  claim_C10 25 (createGrid 25) [] (createGrid 25) 12 12 rfl rfl (by decide)

end DLA

namespace MH

/-- The loop raises `ZeroDivisionError` iff, along the totalized
iteration of its own accept-step, some iteration is reached (no earlier
return, no earlier zero) at which the density of the current state is
zero. -/
theorem mhLoop_divisionByZero_iff (f : ℚ → ℚ) (size : ℕ) (r : Rand) :
    ∀ (fuel : ℕ) (s : State),
      mhLoop f size r fuel s = .divisionByZero ↔
        ∃ k, k < fuel ∧ f ((step f r)^[k] s).x = 0 ∧
          (∀ j, j ≤ k → ((step f r)^[j] s).out.length ≠ size) ∧
          (∀ j, j < k → f (((step f r)^[j] s).x) ≠ 0) := by
  intro fuel
  induction fuel with
  | zero =>
    intro s
    constructor
    · intro h
      rw [mhLoop] at h
      split at h <;> simp_all
    · rintro ⟨k, hk, -⟩
      omega
  | succ fuel ih =>
    intro s
    rw [mhLoop]
    by_cases hlen : s.out.length = size
    · rw [if_pos hlen]
      constructor
      · intro h
        exact absurd h (by simp)
      · rintro ⟨k, hk, h0, h1, h2⟩
        have h10 := h1 0 (by omega)
        rw [Function.iterate_zero_apply] at h10
        exact absurd hlen h10
    · rw [if_neg hlen]
      by_cases hz : f s.x = 0
      · rw [if_pos hz]
        constructor
        · intro _
          refine ⟨0, by omega, ?_, ?_, ?_⟩
          · rwa [Function.iterate_zero_apply]
          · intro j hj
            have hj0 : j = 0 := by omega
            subst hj0
            rwa [Function.iterate_zero_apply]
          · intro j hj
            omega
        · intro _
          rfl
      · rw [if_neg hz, ih (step f r s)]
        constructor
        · rintro ⟨k, hk, h0, h1, h2⟩
          refine ⟨k + 1, by omega, ?_, ?_, ?_⟩
          · rwa [Function.iterate_succ_apply]
          · intro j hj
            cases j with
            | zero =>
              rwa [Function.iterate_zero_apply]
            | succ j =>
              rw [Function.iterate_succ_apply]
              exact h1 j (by omega)
          · intro j hj
            cases j with
            | zero =>
              rwa [Function.iterate_zero_apply]
            | succ j =>
              rw [Function.iterate_succ_apply]
              exact h2 j (by omega)
        · rintro ⟨k, hk, h0, h1, h2⟩
          cases k with
          | zero =>
            rw [Function.iterate_zero_apply] at h0
            exact absurd h0 hz
          | succ k =>
            refine ⟨k, by omega, ?_, ?_, ?_⟩
            · rwa [Function.iterate_succ_apply] at h0
            · intro j hj
              have := h1 (j + 1) (by omega)
              rwa [Function.iterate_succ_apply] at this
            · intro j hj
              have := h2 (j + 1) (by omega)
              rwa [Function.iterate_succ_apply] at this

/-- C9: `metropolis_hastings` raises its `ZeroDivisionError` iff some
reached iteration computes the acceptance ratio with the density of the
current state `x` equal to zero — reached meaning the output was not yet
complete at any iteration up to it and no earlier iteration had a zero
density.  The embedding has no other error outcome for this computation:
a nonzero denominator always yields a ratio and the loop continues. -/
theorem claim_C9_division_by_zero_iff (f : ℚ → ℚ) (size burn : ℕ) (x0 : ℚ)
    (r : Rand) (fuel : ℕ) :
    metropolisHastings f size burn x0 r fuel = .divisionByZero ↔
      ∃ k, k < fuel ∧ f ((step f r)^[k] (⟨x0, burn, [], 0⟩ : State)).x = 0 ∧
        (∀ j, j ≤ k →
          ((step f r)^[j] (⟨x0, burn, [], 0⟩ : State)).out.length ≠ size) ∧
        (∀ j, j < k → f (((step f r)^[j] (⟨x0, burn, [], 0⟩ : State)).x) ≠ 0) :=
  mhLoop_divisionByZero_iff f size r fuel ⟨x0, burn, [], 0⟩

/-- A concrete run hitting the error: the identity density is zero at
the initial state `x0 = 0`, so the very first ratio divides by zero. -/
theorem claim_C9_witness :
    metropolisHastings (fun x => x) 1 0 0 ⟨fun _ => 0, fun _ => 0⟩ 1 =
      .divisionByZero := by
  refine (claim_C9_division_by_zero_iff (fun x => x) 1 0 0
    ⟨fun _ => 0, fun _ => 0⟩ 1).mpr ⟨0, by omega, ?_, ?_, ?_⟩
  · rw [Function.iterate_zero_apply]
  · intro j hj
    have hj0 : j = 0 := by omega
    subst hj0
    rw [Function.iterate_zero_apply]
    simp
  · intro j hj
    omega

end MH
